import Mathlib

/-!
# Verification of the XScribe transcription worker

Shallow embedding of the pipeline logic of `src/python/transcriber.py`,
`src/python/sherpa_diarizer.py` and `src/python/diarizer.py`, together with
theorems settling the specification claims about it.

Conventions:
* Python floats are modelled as rationals (`ℚ`) for the pure data-processing
  code, and as reals (`ℝ`) where the claims themselves are about the continuous
  heartbeat formula `1 - e^(-t/T)`.
* Fallible external calls (model loading, audio decoding, ASR, alignment,
  diarization) are modelled as `Except String α` values supplied by an
  environment record; the worker's own control flow is embedded faithfully.
-/

namespace XScribe

/-! ## Words and the paragraph formatter (`format_text_with_paragraphs`) -/

/-- A word entry as consumed by `format_text_with_paragraphs`: the Python code
reads the dict keys `word`, `start`, `end` with defaults `''`/`0`/`0`; we model
the entry with the defaults already applied. -/
structure Word where
  word : String
  start : ℚ
  endT : ℚ
deriving DecidableEq, Repr

/-- Python `str.rstrip()`: drop trailing whitespace. -/
def pyRstrip (s : String) : String :=
  String.mk ((s.data.reverse.dropWhile Char.isWhitespace).reverse)

/-- Python `str.strip()`: drop leading and trailing whitespace. -/
def pyStrip (s : String) : String :=
  String.mk (((s.data.dropWhile Char.isWhitespace).reverse.dropWhile Char.isWhitespace).reverse)

/-- `word_text.rstrip().endswith(('.', '!', '?'))` from transcriber.py line 333:
after stripping trailing whitespace, the text ends in one of the three
sentence-final punctuation characters. -/
def isSentenceEnd (w : String) : Bool :=
  match (pyRstrip w).data.getLast? with
  | some c => c == '.' || c == '!' || c == '?'
  | none => false

/-- The main walk of `format_text_with_paragraphs` (transcriber.py lines
328-352): accumulate words into the current paragraph buffer `buf`, count
sentences in `sc`, and between word `i` and `i+1` close the paragraph when
`gap > pause_threshold` and `sentence_count >= sentences_per_paragraph`;
after the walk, flush any remaining buffer. -/
def paraWalk (pt : ℚ) (ms : Nat) : List Word → List String → Nat → List String → List String
  | [], buf, _, paras =>
      if buf.isEmpty then paras
      else paras ++ [pyStrip (String.intercalate " " buf)]
  | [w], buf, _, paras =>
      -- last word: it joins the buffer (which is therefore non-empty) and the
      -- walk ends, so the post-loop flush fires unconditionally
      paras ++ [pyStrip (String.intercalate " " (buf ++ [w.word]))]
  | w :: next :: rest, buf, sc, paras =>
      let buf2 := buf ++ [w.word]
      let sc2 := if isSentenceEnd w.word then sc + 1 else sc
      if pt < next.start - w.endT ∧ ms ≤ sc2 then
        paraWalk pt ms (next :: rest) [] 0 (paras ++ [pyStrip (String.intercalate " " buf2)])
      else
        paraWalk pt ms (next :: rest) buf2 sc2 paras
termination_by structural ws => ws

/-- `format_text_with_paragraphs(text, words, pause_threshold, sentences_per_paragraph)`
(transcriber.py lines 304-358). Returns `text` unchanged when fewer than two
words are supplied or the walk yields at most one paragraph; otherwise joins the
paragraphs with a triple newline. -/
def format_text_with_paragraphs (text : String) (words : List Word)
    (pt : ℚ) (ms : Nat) : String :=
  if words.length < 2 then text
  else
    let paragraphs := paraWalk pt ms words [] 0 []
    if paragraphs.length ≤ 1 then text
    else String.intercalate "\n\n\n" paragraphs

/-- Text of one output paragraph: the buffered word strings joined with single
spaces and stripped (transcriber.py lines 344-345). -/
def joinPara (g : List String) : String := pyStrip (String.intercalate " " g)

/-- Modelled from the spec (§4.6 step 3), as the comparison point for the
refinement claim: between word `i` and `i+1` the paragraph closes exactly when
`gap > pauseThreshold` and the accumulated sentence count (counted per step 2,
reset on close) is at least `minSentencesPerParagraph`. `breakBools pt ms ws sc`
lists that decision for each consecutive pair of `ws`, starting from sentence
count `sc`. -/
def breakBools (pt : ℚ) (ms : Nat) : List Word → Nat → List Bool
  | [], _ => []
  | [_], _ => []
  | w :: next :: rest, sc =>
      let sc2 := if isSentenceEnd w.word then sc + 1 else sc
      if pt < next.start - w.endT ∧ ms ≤ sc2 then
        true :: breakBools pt ms (next :: rest) 0
      else
        false :: breakBools pt ms (next :: rest) sc2
termination_by structural ws => ws

/-- Split a word list into paragraph groups at the `true` entries of a
break-decision list (`bs` has one entry per consecutive pair). -/
def splitGroups : List Word → List Bool → List (List Word)
  | [], _ => []
  | [w], _ => [[w]]
  | w :: next :: rest, bs =>
      match splitGroups (next :: rest) bs.tail with
      | [] => [[w]]
      | g :: gs => if bs.headD false then [w] :: g :: gs else (w :: g) :: gs
termination_by structural ws => ws

lemma splitGroups_ne_nil (w : Word) (ws : List Word) (bs : List Bool) :
    splitGroups (w :: ws) bs ≠ [] := by
  cases ws with
  | nil => simp [splitGroups]
  | cons b l =>
      rw [splitGroups]
      cases h : splitGroups (b :: l) bs.tail with
      | nil => simp
      | cons g gs =>
          cases bs with
          | nil => simp
          | cons b0 bs => cases b0 <;> simp

/-- The paragraphs produced by continuing the walk with current buffer `buf`:
the first group of `splitGroups` is prefixed by the buffered words. -/
def groupsWithPrefix (buf : List String) (ws : List Word) (bs : List Bool) : List String :=
  match splitGroups ws bs with
  | [] => if buf.isEmpty then [] else [joinPara buf]
  | g :: gs => joinPara (buf ++ g.map Word.word) :: gs.map (fun h => joinPara (h.map Word.word))

lemma groupsWithPrefix_nil (ws : List Word) (bs : List Bool) :
    groupsWithPrefix [] ws bs
      = (splitGroups ws bs).map (fun g => joinPara (g.map Word.word)) := by
  rw [groupsWithPrefix]
  cases h : splitGroups ws bs <;> simp [h]

/-- The accumulator walk of the source equals the declarative split of the word
list at exactly the spec-characterised break boundaries. -/
theorem paraWalk_eq_groups (pt : ℚ) (ms : Nat) :
    ∀ (ws : List Word) (buf : List String) (sc : Nat) (paras : List String),
      paraWalk pt ms ws buf sc paras
        = paras ++ groupsWithPrefix buf ws (breakBools pt ms ws sc)
  | [], buf, sc, paras => by
      rw [paraWalk, breakBools, groupsWithPrefix]
      cases hb : buf.isEmpty <;> simp [splitGroups, hb, joinPara]
  | [w], buf, sc, paras => by
      rw [paraWalk, breakBools, groupsWithPrefix]
      simp [splitGroups, joinPara]
  | w :: next :: rest, buf, sc, paras => by
      rw [paraWalk, breakBools]
      by_cases hc : pt < next.start - w.endT ∧
          ms ≤ (if isSentenceEnd w.word then sc + 1 else sc)
      · rw [if_pos hc, if_pos hc, paraWalk_eq_groups pt ms (next :: rest),
          groupsWithPrefix_nil, groupsWithPrefix]
        rw [splitGroups, List.tail_cons]
        cases hs2 : splitGroups (next :: rest) (breakBools pt ms (next :: rest) 0) with
        | nil => exact absurd hs2 (splitGroups_ne_nil _ _ _)
        | cons g2 gs2 => simp [joinPara, List.append_assoc]
      · rw [if_neg hc, if_neg hc, paraWalk_eq_groups pt ms (next :: rest)]
        rw [groupsWithPrefix, groupsWithPrefix]
        rw [splitGroups, List.tail_cons]
        cases hs2 : splitGroups (next :: rest) (breakBools pt ms (next :: rest)
            (if isSentenceEnd w.word then sc + 1 else sc)) with
        | nil => exact absurd hs2 (splitGroups_ne_nil _ _ _)
        | cons g2 gs2 => simp [joinPara, List.append_assoc]
termination_by structural ws => ws

/-- **C7.** The paragraph formatter closes the current paragraph between word
`i` and `i+1` exactly when `start(i+1) - end(i) > pauseThreshold` and the
accumulated sentence count is at least `minSentencesPerParagraph`: with at
least two words, the output is the word list split at exactly the
spec-characterised break boundaries (`breakBools`), the groups joined by a
triple newline (the original text if that split is a single paragraph).
In particular, on words `[("Hi.",0,0.3), ("Bye.",5.0,5.3)]` with
`pauseThreshold = 0.7` and `minSentencesPerParagraph = 1`, the formatter
returns exactly the two paragraphs joined by a triple newline. -/
theorem c7_paragraph_break_characterization :
    (∀ (text : String) (ws : List Word) (pt : ℚ) (ms : Nat),
      format_text_with_paragraphs text ws pt ms =
        if ws.length < 2 then text
        else if ((splitGroups ws (breakBools pt ms ws 0)).map
            (fun g => joinPara (g.map Word.word))).length ≤ 1 then text
        else String.intercalate "\n\n\n" ((splitGroups ws (breakBools pt ms ws 0)).map
            (fun g => joinPara (g.map Word.word))))
    ∧ (∀ text : String,
        format_text_with_paragraphs text
          [⟨"Hi.", 0, 3/10⟩, ⟨"Bye.", 5, 53/10⟩] (7/10) 1 = "Hi.\n\n\nBye.") := by
  constructor
  · intro text ws pt ms
    simp only [format_text_with_paragraphs]
    by_cases h : ws.length < 2
    · rw [if_pos h, if_pos h]
    · rw [if_neg h, if_neg h, paraWalk_eq_groups, groupsWithPrefix_nil,
        List.nil_append]
  · intro text
    have hpw : paraWalk ((7:ℚ)/10) 1 [⟨"Hi.", 0, 3/10⟩, ⟨"Bye.", 5, 53/10⟩] [] 0 []
        = ["Hi.", "Bye."] := by
      rw [paraWalk, if_pos]
      · decide
      · exact ⟨by norm_num, by decide⟩
    simp only [format_text_with_paragraphs, hpw]
    rw [if_neg (by decide), if_neg (by decide)]
    decide

/-- **C8.** With fewer than two words, and likewise whenever the walk produces
at most one paragraph (in particular when no pause boundary is detected), the
formatter returns the original text unchanged verbatim; on such inputs it is
therefore idempotent: `format (format x) = format x = x`. -/
theorem c8_identity_and_idempotence :
    ∀ (text : String) (ws : List Word) (pt : ℚ) (ms : Nat),
      (ws.length < 2 → format_text_with_paragraphs text ws pt ms = text) ∧
      ((paraWalk pt ms ws [] 0 []).length ≤ 1 →
        format_text_with_paragraphs text ws pt ms = text ∧
        format_text_with_paragraphs (format_text_with_paragraphs text ws pt ms) ws pt ms
          = format_text_with_paragraphs text ws pt ms) := by
  intro text ws pt ms
  constructor
  · intro h
    simp only [format_text_with_paragraphs]
    rw [if_pos h]
  · intro h
    have hfix : format_text_with_paragraphs text ws pt ms = text := by
      simp only [format_text_with_paragraphs]
      by_cases h2 : ws.length < 2
      · rw [if_pos h2]
      · rw [if_neg h2, if_pos h]
    exact ⟨hfix, by rw [hfix, hfix]⟩

/-- Witness for C8: a one-word input (which also walks to a single paragraph)
is returned verbatim and idempotently. -/
theorem c8_witness :
    ([⟨"a", 0, 0⟩] : List Word).length < 2 ∧
    (paraWalk 1 3 [⟨"a", 0, 0⟩] [] 0 []).length ≤ 1 ∧
    format_text_with_paragraphs "abc" [⟨"a", 0, 0⟩] 1 3 = "abc" ∧
    format_text_with_paragraphs (format_text_with_paragraphs "abc" [⟨"a", 0, 0⟩] 1 3)
      [⟨"a", 0, 0⟩] 1 3 = format_text_with_paragraphs "abc" [⟨"a", 0, 0⟩] 1 3 :=
  ⟨by decide, by decide,
   (c8_identity_and_idempotence "abc" [⟨"a", 0, 0⟩] 1 3).1 (by decide),
   ((c8_identity_and_idempotence "abc" [⟨"a", 0, 0⟩] 1 3).2 (by decide)).2⟩

/-! ## Result segments, output formatting and duration (transcriber.py 621-687) -/

/-- A word dict as present in the pipeline result handed to the output
formatting loop; `speaker` and `score` keys may be absent. The keys `word`,
`start`, `end` are read with defaults `''`/`0`/`0`, modelled as already
applied. -/
structure RawWord where
  word : String
  start : ℚ
  endT : ℚ
  speaker : Option String
  score : Option ℚ
deriving DecidableEq, Repr

/-- The projection of a result word to the fields read by
`format_text_with_paragraphs`. -/
def RawWord.toWord (w : RawWord) : Word := ⟨w.word, w.start, w.endT⟩

/-- A segment dict of the pipeline result (`result["segments"]`). -/
structure RawSegment where
  start : ℚ
  endT : ℚ
  text : String
  speaker : Option String
  words : List RawWord
deriving DecidableEq, Repr

/-- A word of the emitted `transcriptionResult` (transcriber.py 652-661):
`confidence` is present exactly when the source word had a `score`. -/
structure OutWord where
  word : String
  start : ℚ
  endT : ℚ
  speaker : Option String
  confidence : Option ℚ
deriving DecidableEq, Repr

/-- A segment of the emitted `transcriptionResult` (transcriber.py 638-664):
the `words` key is added only when the source segment had word-level data. -/
structure OutSegment where
  start : ℚ
  endT : ℚ
  text : String
  speaker : Option String
  words : Option (List OutWord)
deriving DecidableEq, Repr

def formatWord (w : RawWord) : OutWord :=
  { word := w.word, start := w.start, endT := w.endT,
    speaker := w.speaker, confidence := w.score }

/-- The per-segment output formatting of transcriber.py lines 622-664. -/
def formatSegment (seg : RawSegment) : OutSegment :=
  let originalText := pyStrip seg.text
  let formattedText :=
    if seg.words.isEmpty then originalText
    else format_text_with_paragraphs originalText (seg.words.map RawWord.toWord) (7/10) 3
  { start := seg.start, endT := seg.endT, text := formattedText,
    speaker := seg.speaker,
    words := if seg.words.isEmpty then none else some (seg.words.map formatWord) }

/-- `duration = 0; if segments: duration = max(seg["end"] for seg in segments)`
(transcriber.py lines 666-669): Python `max` over a non-empty sequence is the
left fold of the binary max over the tail, seeded with the first element. -/
def calcDuration : List OutSegment → ℚ
  | [] => 0
  | s :: rest => (rest.map OutSegment.endT).foldl max s.endT

lemma le_foldl_max (l : List ℚ) (a : ℚ) : a ≤ l.foldl max a := by
  induction l generalizing a with
  | nil => exact le_refl a
  | cons b t ih => exact le_trans (le_max_left a b) (ih (max a b))

lemma mem_le_foldl_max (l : List ℚ) (a x : ℚ) (hx : x ∈ l) : x ≤ l.foldl max a := by
  induction l generalizing a with
  | nil => cases hx
  | cons b t ih =>
      rcases List.mem_cons.mp hx with rfl | hmem
      · exact le_trans (le_max_right a x) (le_foldl_max t (max a x))
      · exact ih (max a b) hmem

lemma foldl_max_mem (l : List ℚ) (a : ℚ) : l.foldl max a = a ∨ l.foldl max a ∈ l := by
  induction l generalizing a with
  | nil => exact Or.inl rfl
  | cons b t ih =>
      rcases ih (max a b) with h | h
      · rcases max_choice a b with hm | hm
        · exact Or.inl (by rw [List.foldl_cons, h, hm])
        · exact Or.inr (by rw [List.foldl_cons, h, hm]; exact List.mem_cons_self b t)
      · exact Or.inr (List.mem_cons_of_mem b h)

/-- **C10.** The `duration` of a `transcriptionResult` equals the maximum
`end` time over the returned segments, and `0` when the segment list is
empty: it is an upper bound of all segment end times and, for a non-empty
list, is itself one of them. -/
theorem c10_duration_is_max_end (raw : List RawSegment) :
    (raw = [] → calcDuration (raw.map formatSegment) = 0) ∧
    (∀ s ∈ raw.map formatSegment, s.endT ≤ calcDuration (raw.map formatSegment)) ∧
    (raw ≠ [] →
      calcDuration (raw.map formatSegment) ∈ (raw.map formatSegment).map OutSegment.endT) := by
  refine ⟨fun h => by rw [h]; rfl, ?_, ?_⟩
  · intro s hs
    cases hraw : raw.map formatSegment with
    | nil => rw [hraw] at hs; cases hs
    | cons s0 rest =>
        rw [hraw] at hs
        rcases List.mem_cons.mp hs with rfl | hmem
        · exact le_foldl_max _ _
        · exact mem_le_foldl_max _ _ _ (List.mem_map_of_mem OutSegment.endT hmem)
  · intro h
    cases hraw : raw.map formatSegment with
    | nil => exact absurd (List.map_eq_nil_iff.mp hraw) h
    | cons s0 rest =>
        rw [calcDuration]
        rcases foldl_max_mem (rest.map OutSegment.endT) s0.endT with he | he
        · rw [he]; exact List.mem_cons_self _ _
        · exact List.mem_cons_of_mem _ he

/-- Witness for C10 at a concrete two-segment result (end times 5 and 3)
and at the empty result. -/
theorem c10_witness :
    (calcDuration (([] : List RawSegment).map formatSegment) = 0) ∧
    (([⟨0, 5, "x", none, []⟩, ⟨5, 3, "y", none, []⟩] : List RawSegment) ≠ [] ∧
      calcDuration (([⟨0, 5, "x", none, []⟩, ⟨5, 3, "y", none, []⟩] : List RawSegment).map formatSegment)
        ∈ (([⟨0, 5, "x", none, []⟩, ⟨5, 3, "y", none, []⟩] : List RawSegment).map formatSegment).map OutSegment.endT ∧
      (formatSegment ⟨5, 3, "y", none, []⟩).endT ≤
        calcDuration (([⟨0, 5, "x", none, []⟩, ⟨5, 3, "y", none, []⟩] : List RawSegment).map formatSegment)) :=
  ⟨(c10_duration_is_max_end []).1 rfl,
   by decide,
   (c10_duration_is_max_end _).2.2 (by decide),
   (c10_duration_is_max_end _).2.1 _ (by decide)⟩

/-! ## Diarization channel handling and speaker-count mode
(sherpa_diarizer.py, diarizer.py) -/

/-- numpy `mean(axis=0)` of a rectangular 2-D array: entry `j` is the average
over the rows of their `j`-th entries. -/
def meanAxis0 (w : List (List ℚ)) : List ℚ :=
  (List.range (w.headD []).length).map
    (fun j => (w.map (fun r => r.getD j 0)).sum / (w.length : ℚ))

/-- numpy `w[:, 0]` of a 2-D array: entry `i` is the first entry of row `i`. -/
def column0 (w : List (List ℚ)) : List ℚ := w.map (fun r => r.headD 0)

/-- sherpa_diarizer.py lines 131-136: for a 2-D waveform,
`waveform = waveform.mean(axis=0) if waveform.shape[0] <= 2 else waveform[:, 0]`,
where `shape[0]` is the number of rows (`w.length`); the subsequent
`flatten()` is the identity on the already 1-D result. -/
def toMono (w : List (List ℚ)) : List ℚ :=
  if w.length ≤ 2 then meanAxis0 w else column0 w

/-- Counterexample to C6: for the 3-channel (channel-major, as the
`mean(axis=0)` averaging branch presupposes) waveform
`[[1,2],[3,4],[5,6]]`, the adapter yields `[:, 0] = [1,3,5]` — the vector of
the first sample of each channel — and not the first channel `[1,2]`. -/
theorem c6_counterexample :
    toMono [[1, 2], [3, 4], [5, 6]] = [1, 3, 5] ∧
    toMono [[1, 2], [3, 4], [5, 6]] ≠ [1, 2] := by decide

/-- **C6 (amended).** The adapter averages the rows pointwise when the first
axis has length at most two, and when it is longer than two it takes column 0
— the first entry of each row — which is the first channel only under a
sample-major layout, not the first channel of a channel-major waveform. -/
theorem c6_channel_reduction (a b : List ℚ) (w : List (List ℚ)) :
    (a.length = b.length →
      (toMono [a, b]).length = a.length ∧
      ∀ j, j < a.length →
        (toMono [a, b]).getD j 0 = (a.getD j 0 + b.getD j 0) / 2) ∧
    (2 < w.length → toMono w = w.map (fun r => r.headD 0)) := by
  constructor
  · intro hab
    have hm : toMono [a, b] = meanAxis0 [a, b] := by
      rw [toMono, if_pos (by simp)]
    constructor
    · rw [hm, meanAxis0]
      simp
    · intro j hj
      rw [hm, meanAxis0]
      simp only [List.headD_cons, List.length_cons, List.length_nil,
        List.map_cons, List.map_nil, List.sum_cons, List.sum_nil]
      rw [List.getD_eq_getElem?_getD, List.getElem?_map, List.getElem?_range hj]
      simp only [Option.map_some', Option.getD_some]
      push_cast
      ring
  · intro hw
    rw [toMono, if_neg (by omega)]
    rfl

/-- Witness for C6 (amended): a concrete stereo pair and a concrete
three-row waveform. -/
theorem c6_witness :
    (([1, 3] : List ℚ).length = ([3, 5] : List ℚ).length ∧
      (toMono [[1, 3], [3, 5]]).getD 0 0
        = (([1, 3] : List ℚ).getD 0 0 + ([3, 5] : List ℚ).getD 0 0) / 2) ∧
    (2 < ([[1], [2], [3]] : List (List ℚ)).length ∧
      toMono [[1], [2], [3]]
        = ([[1], [2], [3]] : List (List ℚ)).map (fun r => r.headD 0)) :=
  ⟨⟨by decide,
    ((c6_channel_reduction [1, 3] [3, 5] [[1], [2], [3]]).1 (by decide)).2 0 (by decide)⟩,
   by decide,
   (c6_channel_reduction [1, 3] [3, 5] [[1], [2], [3]]).2 (by decide)⟩

/-- The speaker-count mode a diarization engine invocation runs in. -/
inductive DiarMode
  | autoDetect
  | fixedCount (n : Int)
deriving DecidableEq, Repr

/-- The clustering knob of the sherpa-onnx engine. -/
structure FastClusteringConfig where
  numClusters : Int
  threshold : ℚ
deriving DecidableEq, Repr

/-- sherpa_diarizer.py lines 79-82: the clustering configuration is fixed at
construction, with `num_clusters = -1` (comment in source: auto-detect number
of speakers) and `threshold = 0.5`. -/
def sherpaClusterConfig : FastClusteringConfig :=
  { numClusters := -1, threshold := 1/2 }

/-- sherpa-onnx FastClustering semantics as documented at the construction
site: a positive `num_clusters` fixes the speaker count, otherwise the count
is auto-detected. -/
def clusteringMode (c : FastClusteringConfig) : DiarMode :=
  if 0 < c.numClusters then .fixedCount c.numClusters else .autoDetect

/-- `SherpaDiarizer.__call__` (sherpa_diarizer.py 100-155) accepts a
`num_speakers` argument documented as "Optional hint for number of speakers
(not currently used)" and indeed never reads it: the mode in effect is always
the one fixed at construction. -/
def sherpaCallMode (numSpeakers : Option Int) : DiarMode :=
  clusteringMode sherpaClusterConfig

/-- transcriber.py lines 595-597: `transcribe` adds `num_speakers` to the
diarizer call kwargs exactly when the supplied hint is truthy and positive
(`if num_speakers and num_speakers > 0`). -/
def transcribeDiarizeNumSpeakers (ns : Option Int) : Option Int :=
  match ns with
  | some n => if 0 < n then some n else none
  | none => none

/-- `Diarizer.diarize` (diarizer.py 112-116, the pyannote variant): the
pipeline is invoked with the fixed speaker count exactly when the hint is
truthy and positive. -/
def pyannoteDiarizeMode (numSpeakers : Option Int) : DiarMode :=
  match numSpeakers with
  | some n => if 0 < n then .fixedCount n else .autoDetect
  | none => .autoDetect

/-- Counterexample to C5: a transcribe request with `numSpeakers = 2` forwards
the hint, yet the sherpa adapter runs in auto-detect mode, not in fixed-count
mode honoring the hint. -/
theorem c5_counterexample :
    sherpaCallMode (transcribeDiarizeNumSpeakers (some 2)) ≠ DiarMode.fixedCount 2 ∧
    sherpaCallMode (transcribeDiarizeNumSpeakers (some 2)) = DiarMode.autoDetect := by
  decide

/-- **C5 (amended).** A positive hint is forwarded by `transcribe` to the
diarization adapter, and the legacy pyannote variant honors it (fixed-count
mode with the hint), but the sherpa adapter used by the transcribe pipeline
ignores the hint and always runs in auto-detect mode; auto-detect is also used
when no hint is supplied. -/
theorem c5_speaker_count_mode (n : Int) (hn : 0 < n) :
    transcribeDiarizeNumSpeakers (some n) = some n ∧
    (∀ ns : Option Int, sherpaCallMode ns = DiarMode.autoDetect) ∧
    pyannoteDiarizeMode (some n) = DiarMode.fixedCount n ∧
    pyannoteDiarizeMode none = DiarMode.autoDetect := by
  refine ⟨?_, fun ns => rfl, ?_, rfl⟩
  · rw [transcribeDiarizeNumSpeakers, if_pos hn]
  · rw [pyannoteDiarizeMode, if_pos hn]

/-- Witness for C5 (amended) at the concrete hint 2. -/
theorem c5_witness :
    (0 : Int) < 2 ∧
    transcribeDiarizeNumSpeakers (some 2) = some 2 ∧
    sherpaCallMode (transcribeDiarizeNumSpeakers (some 2)) = DiarMode.autoDetect ∧
    pyannoteDiarizeMode (some 2) = DiarMode.fixedCount 2 :=
  ⟨by decide,
   (c5_speaker_count_mode 2 (by decide)).1,
   (c5_speaker_count_mode 2 (by decide)).2.1 (transcribeDiarizeNumSpeakers (some 2)),
   (c5_speaker_count_mode 2 (by decide)).2.2.1⟩

/-! ## The worker protocol: outbound messages, handlers and the main loop
(transcriber.py 107-123, 361-699, 702-772) -/

/-- The `id` field of an outbound JSON message: absent (malformed-input
error, which echoes no id), JSON `null` (request without an id, since
`msg.get("id")` yields `None`), or a string value. -/
inductive IdF
  | absent
  | null
  | val (s : String)
deriving DecidableEq, Repr

/-- The value placed in `{"id": msg_id}` for `msg_id = msg.get("id")`. -/
def idOf : Option String → IdF
  | some s => .val s
  | none => .null

/-- Python truthiness of `msg_id` (`if msg_id:` in `download_diarization_models`). -/
def idTruthy : Option String → Bool
  | some s => !s.isEmpty
  | none => false

/-- An outbound JSON message of transcriber.py. -/
inductive Output
  | ready (device computeType version : String)
  | progress (id : IdF) (percent : ℚ) (stage message : String)
  | modelLoaded (id : IdF) (device modelSize : String)
  | diarizationModelLoaded (id : IdF) (device : String)
  | transcriptionResult (id : IdF) (segments : List OutSegment)
      (language : String) (duration : ℚ) (speakers : List String)
  | pong (id : IdF)
  | errorResp (id : IdF) (error : String)
deriving DecidableEq, Repr

/-- Terminal responses are everything except `progress` events and the
broadcast `ready` message. -/
def Output.isTerminal : Output → Bool
  | .progress _ _ _ _ => false
  | .ready _ _ _ => false
  | _ => true

def Output.idField : Output → IdF
  | .ready _ _ _ => .absent
  | .progress i _ _ _ => i
  | .modelLoaded i _ _ => i
  | .diarizationModelLoaded i _ => i
  | .transcriptionResult i _ _ _ _ => i
  | .pong i => i
  | .errorResp i _ => i

def Output.isTranscriptionResult : Output → Bool
  | .transcriptionResult _ _ _ _ _ => true
  | _ => false

def Output.isErrorResp : Output → Bool
  | .errorResp _ _ => true
  | _ => false

@[simp] lemma isTerminal_ready (d c v : String) :
    (Output.ready d c v).isTerminal = false := rfl

@[simp] lemma isTerminal_progress (i : IdF) (q : ℚ) (s m : String) :
    (Output.progress i q s m).isTerminal = false := rfl

@[simp] lemma isTerminal_modelLoaded (i : IdF) (d ms : String) :
    (Output.modelLoaded i d ms).isTerminal = true := rfl

@[simp] lemma isTerminal_diarizationModelLoaded (i : IdF) (d : String) :
    (Output.diarizationModelLoaded i d).isTerminal = true := rfl

@[simp] lemma isTerminal_transcriptionResult (i : IdF) (sg : List OutSegment)
    (l : String) (du : ℚ) (sp : List String) :
    (Output.transcriptionResult i sg l du sp).isTerminal = true := rfl

@[simp] lemma isTerminal_pong (i : IdF) : (Output.pong i).isTerminal = true := rfl

@[simp] lemma isTerminal_errorResp (i : IdF) (e : String) :
    (Output.errorResp i e).isTerminal = true := rfl

@[simp] lemma idField_progress (i : IdF) (q : ℚ) (s m : String) :
    (Output.progress i q s m).idField = i := rfl

@[simp] lemma idField_modelLoaded (i : IdF) (d ms : String) :
    (Output.modelLoaded i d ms).idField = i := rfl

@[simp] lemma idField_diarizationModelLoaded (i : IdF) (d : String) :
    (Output.diarizationModelLoaded i d).idField = i := rfl

@[simp] lemma idField_transcriptionResult (i : IdF) (sg : List OutSegment)
    (l : String) (du : ℚ) (sp : List String) :
    (Output.transcriptionResult i sg l du sp).idField = i := rfl

@[simp] lemma idField_pong (i : IdF) : (Output.pong i).idField = i := rfl

@[simp] lemma idField_errorResp (i : IdF) (e : String) :
    (Output.errorResp i e).idField = i := rfl

@[simp] lemma isTranscriptionResult_transcriptionResult (i : IdF)
    (sg : List OutSegment) (l : String) (du : ℚ) (sp : List String) :
    (Output.transcriptionResult i sg l du sp).isTranscriptionResult = true := rfl

@[simp] lemma isErrorResp_errorResp (i : IdF) (e : String) :
    (Output.errorResp i e).isErrorResp = true := rfl

/-- The mutable state of a `WhisperXTranscriber` instance that the control
flow branches on. -/
structure TState where
  deviceName : String
  modelLoaded : Bool
  currentModelSize : Option String
  diarLoaded : Bool
deriving DecidableEq, Repr

/-- Outcomes of the external calls made by `load_model`. -/
structure LoadModelEnv where
  isCached : Bool
  loadResult : Except String Unit

/-- Outcomes of the external calls made by `load_diarization_model`:
`dlProgress` is the number of per-file progress events the download loop
emitted before finishing or failing. -/
structure LoadDiarEnv where
  modelsPresent : Bool
  dlProgress : ℕ
  downloadResult : Except String Unit
  ctorResult : Except String Unit

/-- The dict returned by `model.transcribe`: its `segments`, and its
`language` key if present (read as `result.get("language", language)`). -/
structure AsrOutput where
  segments : List RawSegment
  language : Option String

/-- A row of the speaker-turn DataFrame returned by the diarizer. -/
structure SpeakerTurn where
  start : ℚ
  endT : ℚ
  speaker : String
deriving DecidableEq, Repr

/-- Outcomes and emissions of the external calls made by `transcribe`:
heartbeat percents are abstracted as the lists of values the two heartbeat
threads emitted; `diarRun` is a function of the forwarded `num_speakers`
kwarg; `assign` is `whisperx.assign_word_speakers` as a black box. -/
structure TranscribeEnv where
  fileExists : Bool
  audioLoad : Except String Unit
  hbT : List ℚ
  asr : Except String AsrOutput
  hbA : List ℚ
  align : Except String (List RawSegment)
  diarModelsPresent : Bool
  dlProgress : ℕ
  diarDownload : Except String Unit
  diarCtor : Except String Unit
  diarCallbackP : List ℚ
  diarRun : Option Int → Except String (List SpeakerTurn)
  assign : List SpeakerTurn → List RawSegment → List RawSegment

/-- Speaker labels found in the assigned result (transcriber.py 607-614):
the `speaker` of every segment and of every word, collected. -/
def collectSpeakers (segs : List RawSegment) : List String :=
  segs.foldr
    (fun seg acc =>
      (match seg.speaker with | some s => [s] | none => []) ++
        seg.words.filterMap RawWord.speaker ++ acc)
    []

/-- `sorted(list(set(...)))`: the distinct labels in ascending order. -/
def extractSpeakers (segs : List RawSegment) : List String :=
  ((collectSpeakers segs).dedup).mergeSort (fun a b => decide (a ≤ b))

/-- `WhisperXTranscriber.load_model` (transcriber.py 381-430): returns the
progress events sent, the terminal response, and the updated state. -/
def loadModelFn (st : TState) (mid : Option String) (modelSize : String)
    (env : LoadModelEnv) : List Output × Output × TState :=
  let p0 :=
    if env.isCached then
      Output.progress (idOf mid) 10 "loading" ("Loading " ++ modelSize ++ " model...")
    else
      Output.progress (idOf mid) (-1) "downloading"
        ("Downloading " ++ modelSize ++ " model from HuggingFace...")
  match env.loadResult with
  | .error e => ([p0], .errorResp (idOf mid) ("Failed to load model: " ++ e), st)
  | .ok _ =>
      ([p0,
        .progress (idOf mid) 80 "loading" "Loading alignment model...",
        .progress (idOf mid) 100 "loading" "Model ready"],
       .modelLoaded (idOf mid) st.deviceName modelSize,
       { st with modelLoaded := true, currentModelSize := some modelSize })

/-- `WhisperXTranscriber.load_diarization_model` (transcriber.py 432-466). -/
def loadDiarizationModelFn (st : TState) (mid : Option String)
    (env : LoadDiarEnv) : List Output × Output × TState :=
  let p0 := Output.progress (idOf mid) 10 "downloading" "Loading diarization model..."
  let dlEvents :=
    if !env.modelsPresent && idTruthy mid then
      List.replicate env.dlProgress
        (Output.progress (idOf mid) 56 "diarizing" "Downloading diarization model...")
    else []
  let setup : Except String Unit :=
    if env.modelsPresent then env.ctorResult
    else
      match env.downloadResult with
      | .error e => .error e
      | .ok _ => env.ctorResult
  match setup with
  | .error e =>
      (p0 :: dlEvents,
       .errorResp (idOf mid) ("Failed to load diarization model: " ++ e), st)
  | .ok _ =>
      (p0 :: dlEvents ++
        [Output.progress (idOf mid) 100 "downloading" "Diarization model loaded"],
       .diarizationModelLoaded (idOf mid) st.deviceName,
       { st with diarLoaded := true })

/-- `WhisperXTranscriber.transcribe` (transcriber.py 468-699): the progress
events emitted before returning, the terminal response, and the updated
state, for the external-call outcomes described by `env`. -/
def transcribeFn (st : TState) (mid : Option String) (filePath : Option String)
    (language : String) (enableDiar : Bool) (numSpeakers : Option Int)
    (env : TranscribeEnv) : List Output × Output × TState :=
  if !st.modelLoaded then
    ([], .errorResp (idOf mid) "Model not loaded. Call loadModel first.", st)
  else if !env.fileExists then
    ([], .errorResp (idOf mid) ("Audio file not found: " ++ filePath.getD ""), st)
  else
    let p5 := Output.progress (idOf mid) 5 "transcribing" "Loading audio file..."
    match env.audioLoad with
    | .error e =>
        ([p5],
         .errorResp (idOf mid)
           ("Failed to load audio file: " ++ e ++
            ". If using a network path, try copying the file to a local folder first."),
         st)
    | .ok _ =>
        let hbT := env.hbT.map (fun q =>
          Output.progress (idOf mid) q "transcribing" "Running speech recognition...")
        match env.asr with
        | .error e =>
            (p5 :: hbT, .errorResp (idOf mid) ("Transcription failed: " ++ e), st)
        | .ok asrOut =>
            let detectedLanguage := asrOut.language.getD language
            let hbA := env.hbA.map (fun q =>
              Output.progress (idOf mid) q "aligning" "Aligning words for precise timestamps...")
            -- alignment failure is caught and the unaligned result is kept
            let result :=
              match env.align with
              | .ok aligned => aligned
              | .error _ => asrOut.segments
            let p55 := Output.progress (idOf mid) 55 "processing" "Processing segments..."
            if enableDiar then
              let p56 := Output.progress (idOf mid) 56 "diarizing" "Running speaker diarization..."
              let dlEvents :=
                if !st.diarLoaded && !env.diarModelsPresent && idTruthy mid then
                  List.replicate env.dlProgress
                    (Output.progress (idOf mid) 56 "diarizing" "Downloading diarization model...")
                else []
              let setup : Except String Unit :=
                if st.diarLoaded then .ok ()
                else if env.diarModelsPresent then env.diarCtor
                else
                  match env.diarDownload with
                  | .error e => .error e
                  | .ok _ => env.diarCtor
              match setup with
              | .error e =>
                  (p5 :: hbT ++ hbA ++ [p55, p56] ++ dlEvents,
                   .errorResp (idOf mid) ("Transcription failed: " ++ e), st)
              | .ok _ =>
                  let st2 := { st with diarLoaded := true }
                  let p58 := Output.progress (idOf mid) 58 "diarizing" "Identifying speakers..."
                  let cbEvents := env.diarCallbackP.map (fun p =>
                    Output.progress (idOf mid) (58 + p / 100 * (88 - 58)) "diarizing"
                      "Identifying speakers...")
                  match env.diarRun (transcribeDiarizeNumSpeakers numSpeakers) with
                  | .error e =>
                      (p5 :: hbT ++ hbA ++ [p55, p56] ++ dlEvents ++ p58 :: cbEvents,
                       .errorResp (idOf mid) ("Transcription failed: " ++ e), st2)
                  | .ok turns =>
                      let p90 := Output.progress (idOf mid) 90 "assigning" "Assigning speakers to words..."
                      let assigned := env.assign turns result
                      let speakers := extractSpeakers assigned
                      let p96 := Output.progress (idOf mid) 96 "formatting" "Formatting results..."
                      let segments := assigned.map formatSegment
                      let p100 := Output.progress (idOf mid) 100 "complete" "Transcription complete"
                      (p5 :: hbT ++ hbA ++ [p55, p56] ++ dlEvents ++ p58 :: cbEvents ++ [p90, p96, p100],
                       .transcriptionResult (idOf mid) segments detectedLanguage
                         (calcDuration segments) speakers,
                       st2)
            else
              let p96 := Output.progress (idOf mid) 96 "formatting" "Formatting results..."
              let segments := result.map formatSegment
              let p100 := Output.progress (idOf mid) 100 "complete" "Transcription complete"
              (p5 :: hbT ++ hbA ++ [p55, p96, p100],
               .transcriptionResult (idOf mid) segments detectedLanguage
                 (calcDuration segments) [],
               st)

/-- A parsed inbound command, as dispatched by `main` (transcriber.py 728-758). -/
inductive InMsg
  | loadModel (id : Option String) (modelSize language : String)
  | loadDiarizationModel (id : Option String)
  | transcribe (id : Option String) (filePath : Option String) (language : String)
      (enableDiarization : Bool) (numSpeakers : Option Int)
  | ping (id : Option String)
  | unknown (id : Option String) (ty : String)

def InMsg.reqId : InMsg → Option String
  | .loadModel i _ _ => i
  | .loadDiarizationModel i => i
  | .transcribe i _ _ _ _ => i
  | .ping i => i
  | .unknown i _ => i

/-- The four dispatched command types; `unknown` covers every other `type`. -/
def InMsg.isKnown : InMsg → Bool
  | .unknown _ _ => false
  | _ => true

def InMsg.isTranscribe : InMsg → Bool
  | .transcribe _ _ _ _ _ => true
  | _ => false

/-- The external-call outcomes available while handling one command. -/
structure HandlerEnv where
  lm : LoadModelEnv
  ld : LoadDiarEnv
  tr : TranscribeEnv

/-- One dispatch step of `main` (transcriber.py 728-758): run the handler and
`send` its returned response after the progress events it sent itself. -/
def handleMsg (st : TState) (env : HandlerEnv) : InMsg → List Output × TState
  | .loadModel mid ms _lang =>
      let r := loadModelFn st mid ms env.lm
      (r.1 ++ [r.2.1], r.2.2)
  | .loadDiarizationModel mid =>
      let r := loadDiarizationModelFn st mid env.ld
      (r.1 ++ [r.2.1], r.2.2)
  | .transcribe mid fp lang diar ns =>
      let r := transcribeFn st mid fp lang diar ns env.tr
      (r.1 ++ [r.2.1], r.2.2)
  | .ping mid => ([.pong (idOf mid)], st)
  | .unknown mid ty =>
      ([.errorResp (idOf mid) ("Unknown message type: " ++ ty)], st)

/-- One line of stdin as seen by the loop of `main` (transcriber.py 718-764):
blank after stripping, JSON-malformed, or a parsed command. -/
inductive Line
  | blank
  | malformed (e : String)
  | wellFormed (m : InMsg)

/-- Processing of one stdin line (transcriber.py 718-764): blank lines are
skipped, a `json.JSONDecodeError` yields one error response with no id field,
and a parsed message is dispatched. -/
def processLine (st : TState) (env : HandlerEnv) : Line → List Output × TState
  | .blank => ([], st)
  | .malformed e => ([.errorResp .absent ("Invalid JSON: " ++ e)], st)
  | .wellFormed m => handleMsg st env m

/-- The read-dispatch-respond loop of `main` over a finite stdin. -/
def mainLoop (st : TState) : List (Line × HandlerEnv) → List Output
  | [] => []
  | (l, env) :: rest =>
      (processLine st env l).1 ++ mainLoop (processLine st env l).2 rest

/-- **C9.** A non-blank line that fails to parse as JSON yields exactly one
error response that carries no id field, the loop does not terminate, and the
next input line is processed (from the unchanged worker state). -/
theorem c9_malformed_json_resilience (st : TState) (env : HandlerEnv)
    (e : String) (rest : List (Line × HandlerEnv)) :
    mainLoop st ((Line.malformed e, env) :: rest)
      = Output.errorResp .absent ("Invalid JSON: " ++ e) :: mainLoop st rest := rfl

lemma loadModelFn_spec (st : TState) (mid : Option String) (ms : String)
    (env : LoadModelEnv) :
    (∀ p ∈ (loadModelFn st mid ms env).1,
        p.isTerminal = false ∧ p.idField = idOf mid) ∧
    (loadModelFn st mid ms env).2.1.isTerminal = true ∧
    (loadModelFn st mid ms env).2.1.idField = idOf mid := by
  rcases env with ⟨cached, load⟩
  cases load <;> cases cached <;> simp [loadModelFn]

lemma loadDiarizationModelFn_spec (st : TState) (mid : Option String)
    (env : LoadDiarEnv) :
    (∀ p ∈ (loadDiarizationModelFn st mid env).1,
        p.isTerminal = false ∧ p.idField = idOf mid) ∧
    (loadDiarizationModelFn st mid env).2.1.isTerminal = true ∧
    (loadDiarizationModelFn st mid env).2.1.idField = idOf mid := by
  rcases env with ⟨present, dl, dres, cres⟩
  cases present <;> cases dres <;> cases cres <;>
    cases hid : idTruthy mid <;>
      simp [loadDiarizationModelFn, hid, List.mem_replicate,
        List.forall_mem_cons, List.forall_mem_append, List.forall_mem_map,
        or_imp, and_imp, forall_and, forall_eq, forall_eq']

set_option maxHeartbeats 800000 in
lemma transcribeFn_spec (st : TState) (mid fp : Option String) (lang : String)
    (diar : Bool) (ns : Option Int) (env : TranscribeEnv) :
    (∀ p ∈ (transcribeFn st mid fp lang diar ns env).1,
        p.isTerminal = false ∧ p.idField = idOf mid) ∧
    (transcribeFn st mid fp lang diar ns env).2.1.isTerminal = true ∧
    (transcribeFn st mid fp lang diar ns env).2.1.idField = idOf mid ∧
    ((transcribeFn st mid fp lang diar ns env).2.1.isTranscriptionResult = true ∨
      (transcribeFn st mid fp lang diar ns env).2.1.isErrorResp = true) := by
  rcases env with ⟨fe, au, hbT, asr, hbA, algn, present, dl, dld, ctor, cbp, run, asg⟩
  simp only [transcribeFn]
  cases hm : st.modelLoaded <;> simp only [hm, Bool.not_true, Bool.not_false]
  · simp
  · cases fe <;> simp only [Bool.not_true, Bool.not_false]
    · simp
    · cases au with
      | error e => simp
      | ok u =>
        cases asr with
        | error e =>
            simp [List.forall_mem_cons, List.forall_mem_append,
              List.forall_mem_map, or_imp, and_imp, forall_and, forall_eq, forall_eq']
        | ok a =>
          cases diar
          · simp [List.forall_mem_cons, List.forall_mem_append,
              List.forall_mem_map, or_imp, and_imp, forall_and, forall_eq, forall_eq']
          · cases hld : st.diarLoaded
            case false =>
              cases present
              case true =>
                cases ctor with
                | error e =>
                    cases hrun : run (transcribeDiarizeNumSpeakers ns) <;>
                      simp [hld, List.forall_mem_cons, List.forall_mem_append,
                        List.forall_mem_map, or_imp, and_imp, forall_and,
                        forall_eq, forall_eq']
                | ok v =>
                    cases hrun : run (transcribeDiarizeNumSpeakers ns) <;>
                      simp [hld, hrun, List.forall_mem_cons, List.forall_mem_append,
                        List.forall_mem_map, or_imp, and_imp, forall_and,
                        forall_eq, forall_eq']
              case false =>
                cases hid : idTruthy mid <;> cases dld <;> cases ctor <;>
                  cases hrun : run (transcribeDiarizeNumSpeakers ns) <;>
                    simp [hld, hid, hrun, List.mem_replicate,
                      List.forall_mem_cons, List.forall_mem_append,
                      List.forall_mem_map, or_imp, and_imp, forall_and,
                      forall_eq, forall_eq']
            case true =>
              cases hrun : run (transcribeDiarizeNumSpeakers ns) <;>
                simp [hld, hrun, List.forall_mem_cons, List.forall_mem_append,
                  List.forall_mem_map, or_imp, and_imp, forall_and,
                  forall_eq, forall_eq']

/-- **C1.** For every well-formed request of one of the four dispatched kinds
carrying a non-null id, the loop emits exactly one terminal response, carrying
that id, after zero or more progress events carrying that id; for a
`transcribe` request the terminal response is a `transcriptionResult` or an
`error`, never anything else. The loop then continues with the remaining
input. -/
theorem c1_single_terminal_response (st : TState) (env : HandlerEnv)
    (m : InMsg) (mid : String) (hid : m.reqId = some mid)
    (hk : m.isKnown = true) :
    ∃ ps t, (handleMsg st env m).1 = ps ++ [t] ∧
      t.isTerminal = true ∧ t.idField = .val mid ∧
      (∀ p ∈ ps, p.isTerminal = false ∧ p.idField = .val mid) ∧
      (m.isTranscribe = true →
        t.isTranscriptionResult = true ∨ t.isErrorResp = true) ∧
      (∀ rest, mainLoop st ((Line.wellFormed m, env) :: rest)
          = ps ++ t :: mainLoop (handleMsg st env m).2 rest) := by
  have hloop : ∀ ps t, (handleMsg st env m).1 = ps ++ [t] →
      ∀ rest, mainLoop st ((Line.wellFormed m, env) :: rest)
        = ps ++ t :: mainLoop (handleMsg st env m).2 rest := by
    intro ps t hpt rest
    show (processLine st env (Line.wellFormed m)).1 ++ _ = _
    rw [processLine, hpt, List.append_assoc, List.singleton_append]
  cases m with
  | loadModel mid0 ms lang =>
      cases hid
      obtain ⟨h1, h2, h3⟩ := loadModelFn_spec st (some mid) ms env.lm
      exact ⟨(loadModelFn st (some mid) ms env.lm).1,
        (loadModelFn st (some mid) ms env.lm).2.1, rfl, h2, h3, h1,
        fun h => Bool.noConfusion h, hloop _ _ rfl⟩
  | loadDiarizationModel mid0 =>
      cases hid
      obtain ⟨h1, h2, h3⟩ := loadDiarizationModelFn_spec st (some mid) env.ld
      exact ⟨(loadDiarizationModelFn st (some mid) env.ld).1,
        (loadDiarizationModelFn st (some mid) env.ld).2.1, rfl, h2, h3, h1,
        fun h => Bool.noConfusion h, hloop _ _ rfl⟩
  | transcribe mid0 fp lang diar ns =>
      cases hid
      obtain ⟨h1, h2, h3, h4⟩ := transcribeFn_spec st (some mid) fp lang diar ns env.tr
      exact ⟨(transcribeFn st (some mid) fp lang diar ns env.tr).1,
        (transcribeFn st (some mid) fp lang diar ns env.tr).2.1, rfl, h2, h3, h1,
        fun _ => h4, hloop _ _ rfl⟩
  | ping mid0 =>
      cases hid
      exact ⟨[], .pong (.val mid), rfl, rfl, rfl, by simp,
        fun h => Bool.noConfusion h, hloop [] _ rfl⟩
  | unknown mid0 ty => exact absurd hk (by simp [InMsg.isKnown])

/-- Witness for C1: a concrete `ping` with id `"7"` gets exactly the terminal
`pong` response with id `"7"`. -/
theorem c1_witness :
    (InMsg.ping (some "7")).reqId = some "7" ∧
    (InMsg.ping (some "7")).isKnown = true ∧
    ∃ ps t,
      (handleMsg ⟨"cpu", false, none, false⟩
        ⟨⟨false, .ok ()⟩,
         ⟨true, 0, .ok (), .ok ()⟩,
         ⟨true, .ok (), [], .ok ⟨[], none⟩, [], .ok [], true, 0, .ok (), .ok (), [],
          fun _ => .ok [], fun _ segs => segs⟩⟩
        (InMsg.ping (some "7"))).1 = ps ++ [t] ∧
      t.isTerminal = true ∧ t.idField = .val "7" ∧
      (∀ p ∈ ps, p.isTerminal = false ∧ p.idField = .val "7") ∧
      ((InMsg.ping (some "7")).isTranscribe = true →
        t.isTranscriptionResult = true ∨ t.isErrorResp = true) ∧
      (∀ rest, mainLoop ⟨"cpu", false, none, false⟩
          ((Line.wellFormed (InMsg.ping (some "7")),
            ⟨⟨false, .ok ()⟩,
             ⟨true, 0, .ok (), .ok ()⟩,
             ⟨true, .ok (), [], .ok ⟨[], none⟩, [], .ok [], true, 0, .ok (), .ok (), [],
              fun _ => .ok [], fun _ segs => segs⟩⟩) :: rest)
          = ps ++ t :: mainLoop
              (handleMsg ⟨"cpu", false, none, false⟩
                ⟨⟨false, .ok ()⟩,
                 ⟨true, 0, .ok (), .ok ()⟩,
                 ⟨true, .ok (), [], .ok ⟨[], none⟩, [], .ok [], true, 0, .ok (), .ok (), [],
                  fun _ => .ok [], fun _ segs => segs⟩⟩
                (InMsg.ping (some "7"))).2 rest) :=
  ⟨rfl, rfl, c1_single_terminal_response _ _ (InMsg.ping (some "7")) "7" rfl rfl⟩

/-- **C4.** If the word-alignment stage raises, the pipeline continues with
the unaligned recognition result: with diarization disabled the terminal
response is the `transcriptionResult` built from the unaligned ASR segments,
and with diarization enabled (and the remaining stages succeeding) it is the
`transcriptionResult` built from the speaker-assigned unaligned segments —
never an `error`. -/
theorem c4_alignment_failure_nonfatal (st : TState) (mid fp : Option String)
    (lang : String) (diar : Bool) (ns : Option Int) (env : TranscribeEnv)
    (a : AsrOutput) (e : String)
    (hm : st.modelLoaded = true) (hf : env.fileExists = true)
    (hau : env.audioLoad = .ok ()) (hasr : env.asr = .ok a)
    (halign : env.align = .error e)
    (hdl : env.diarDownload = .ok ()) (hctor : env.diarCtor = .ok ()) :
    (diar = false →
      (transcribeFn st mid fp lang diar ns env).2.1
        = .transcriptionResult (idOf mid) (a.segments.map formatSegment)
            (a.language.getD lang)
            (calcDuration (a.segments.map formatSegment)) []) ∧
    (diar = true → ∀ turns,
      env.diarRun (transcribeDiarizeNumSpeakers ns) = .ok turns →
      (transcribeFn st mid fp lang diar ns env).2.1
        = .transcriptionResult (idOf mid)
            ((env.assign turns a.segments).map formatSegment)
            (a.language.getD lang)
            (calcDuration ((env.assign turns a.segments).map formatSegment))
            (extractSpeakers (env.assign turns a.segments))) := by
  rcases env with ⟨fe, au, hbT, asr, hbA, algn, present, dl, dld, ctor, cbp, run, asg⟩
  cases hf
  cases hau
  cases hasr
  cases halign
  cases hdl
  cases hctor
  constructor
  · rintro rfl
    simp [transcribeFn, hm]
  · rintro rfl turns hrun
    have hrun2 : run (transcribeDiarizeNumSpeakers ns) = Except.ok turns := hrun
    cases hld : st.diarLoaded <;> cases present <;> cases hid : idTruthy mid <;>
      simp [transcribeFn, hm, hld, hid, hrun2]

/-- Witness for C4: a concrete transcribe run whose alignment fails but which
still terminates in a `transcriptionResult`. -/
theorem c4_witness :
    (⟨"cpu", true, some "base", false⟩ : TState).modelLoaded = true ∧
    (⟨true, .ok (), [], .ok ⟨[], none⟩, [], .error "boom", true, 0, .ok (), .ok (),
      [], fun _ => .ok [], fun _ segs => segs⟩ : TranscribeEnv).align = .error "boom" ∧
    (transcribeFn ⟨"cpu", true, some "base", false⟩ (some "42") (some "a.wav") "en"
        true none
        ⟨true, .ok (), [], .ok ⟨[], none⟩, [], .error "boom", true, 0, .ok (), .ok (),
         [], fun _ => .ok [], fun _ segs => segs⟩).2.1
      = Output.transcriptionResult (.val "42") [] "en" 0 [] :=
  ⟨rfl, rfl, by
    have h := (c4_alignment_failure_nonfatal ⟨"cpu", true, some "base", false⟩
      (some "42") (some "a.wav") "en" true none
      ⟨true, .ok (), [], .ok ⟨[], none⟩, [], .error "boom", true, 0, .ok (), .ok (),
       [], fun _ => .ok [], fun _ segs => segs⟩
      ⟨[], none⟩ "boom" rfl rfl rfl rfl rfl rfl rfl).2 rfl [] rfl
    simpa [calcDuration, extractSpeakers, collectSpeakers, idOf,
      List.dedup_nil, List.mergeSort_nil] using h⟩

/-! ## The heartbeat percent formula (`ProgressHeartbeat._heartbeat_loop`,
transcriber.py 162-183) -/

/-- The percent computed on a heartbeat tick at elapsed time `t`
(transcriber.py lines 167-174): with `progress_range = end - start` and
`progress_fraction = 1 - e^(-elapsed / expected_duration)`, the tick emits
`start + progress_range * 0.95 * progress_fraction`. -/
noncomputable def heartbeat_percent (startP endP t expectedDuration : ℝ) : ℝ :=
  startP + (endP - startP) * 0.95 * (1 - Real.exp (-t / expectedDuration))

lemma exp_le_one_of_nonneg {t T : ℝ} (ht : 0 ≤ t) (hT : 0 < T) :
    Real.exp (-t / T) ≤ 1 := by
  have hx : -t / T ≤ 0 := by
    rw [neg_div]
    exact neg_nonpos.mpr (div_nonneg ht hT.le)
  calc Real.exp (-t / T) ≤ Real.exp 0 := Real.exp_le_exp.mpr hx
    _ = 1 := Real.exp_zero

lemma heartbeat_percent_lower {s e : ℝ} (t T : ℝ) (hse : s ≤ e) (ht : 0 ≤ t)
    (hT : 0 < T) : s ≤ heartbeat_percent s e t T := by
  have h1 := exp_le_one_of_nonneg ht hT
  have h2 : (0:ℝ) ≤ (e - s) * 0.95 * (1 - Real.exp (-t / T)) :=
    mul_nonneg (mul_nonneg (by linarith) (by norm_num)) (by linarith)
  unfold heartbeat_percent
  linarith

lemma heartbeat_percent_upper {s e : ℝ} (t T : ℝ) (hse : s ≤ e) :
    heartbeat_percent s e t T ≤ s + (e - s) * 0.95 := by
  have h1 : 0 < Real.exp (-t / T) := Real.exp_pos _
  have h2 : (0:ℝ) ≤ (e - s) * 0.95 := mul_nonneg (by linarith) (by norm_num)
  have h3 : (e - s) * 0.95 * (1 - Real.exp (-t / T)) ≤ (e - s) * 0.95 * 1 :=
    mul_le_mul_of_nonneg_left (by linarith) h2
  unfold heartbeat_percent
  linarith

lemma heartbeat_percent_lt_end {s e : ℝ} (t T : ℝ) (hse : s < e) (ht : 0 ≤ t)
    (hT : 0 < T) : heartbeat_percent s e t T < e := by
  have h1 := heartbeat_percent_upper t T hse.le
  have h2 : s + (e - s) * 0.95 < e := by linarith
  linarith

lemma heartbeat_percent_mono {s e : ℝ} (T : ℝ) (hse : s ≤ e) (hT : 0 < T) :
    ∀ t1 t2, t1 ≤ t2 →
      heartbeat_percent s e t1 T ≤ heartbeat_percent s e t2 T := by
  intro t1 t2 h
  have hexp : Real.exp (-t2 / T) ≤ Real.exp (-t1 / T) :=
    Real.exp_le_exp.mpr (by
      rw [div_le_div_iff_of_pos_right hT]
      exact neg_le_neg h)
  have hm : (0:ℝ) ≤ (e - s) * 0.95 := mul_nonneg (by linarith) (by norm_num)
  have h3 : (e - s) * 0.95 * (1 - Real.exp (-t1 / T))
      ≤ (e - s) * 0.95 * (1 - Real.exp (-t2 / T)) :=
    mul_le_mul_of_nonneg_left (by linarith) hm
  unfold heartbeat_percent
  linarith

/-- **C2.** Every heartbeat tick at finite elapsed time `t ≥ 0` emits exactly
`startPercent + (endPercent - startPercent) * 0.95 * (1 - e^(-t/expectedDuration))`,
and for `startPercent < endPercent` and `expectedDuration > 0` this value is
strictly below `endPercent` on every tick. -/
theorem c2_heartbeat_percent (s e t T : ℝ) (ht : 0 ≤ t) (hT : 0 < T)
    (hse : s < e) :
    heartbeat_percent s e t T = s + (e - s) * 0.95 * (1 - Real.exp (-t / T)) ∧
    heartbeat_percent s e t T < e :=
  ⟨rfl, heartbeat_percent_lt_end t T hse ht hT⟩

/-- Witness for C2 at the recognition stage parameters `10 → 38`,
`expectedDuration = 60`, at tick time `t = 0`. -/
theorem c2_witness :
    (0:ℝ) ≤ 0 ∧ (0:ℝ) < 60 ∧ (10:ℝ) < 38 ∧
    heartbeat_percent 10 38 0 60 = 10 + (38 - 10) * 0.95 * (1 - Real.exp (-0 / 60)) ∧
    heartbeat_percent 10 38 0 60 < 38 :=
  ⟨le_refl 0, by norm_num, by norm_num,
   (c2_heartbeat_percent 10 38 0 60 (le_refl 0) (by norm_num) (by norm_num)).1,
   (c2_heartbeat_percent 10 38 0 60 (le_refl 0) (by norm_num) (by norm_num)).2⟩

/-! ## Progress monotonicity across one transcribe request (C3) -/

/-- The sequence of percentages emitted during one successful `transcribe`
request with the real heartbeat values, in emission order (transcriber.py
498-678): `5` (audio load), the recognition heartbeat ticks (`10 → 38`,
expected duration `Tt`), the alignment heartbeat ticks (`40 → 54`, expected
duration `Ta`), `55` (processing), then — when diarization is enabled — `56`,
the `dl` per-file download progress events (each `56`), `58`, the remapped
engine callbacks `58 + p/100 * (88 - 58)`, and `90` (assigning); finally `96`
(formatting) and `100` (complete). -/
noncomputable def transcribeTrace (Tt Ta : ℝ) (ticksT ticksA : List ℝ)
    (diar : Bool) (dl : ℕ) (diarP : List ℝ) : List ℝ :=
  (((([5] ++ ticksT.map (fun t => heartbeat_percent 10 38 t Tt))
      ++ ticksA.map (fun t => heartbeat_percent 40 54 t Ta))
      ++ [55])
      ++ (if diar then
            ((([56] ++ List.replicate dl (56:ℝ)) ++ [58])
              ++ diarP.map (fun p => 58 + p / 100 * (88 - 58))) ++ [90]
          else []))
      ++ [96, 100]

lemma chain_le_append (c : ℝ) {l1 l2 : List ℝ} (h1 : l1.Chain' (· ≤ ·))
    (h2 : l2.Chain' (· ≤ ·)) (hu : ∀ x ∈ l1, x ≤ c) (hl : ∀ y ∈ l2, c ≤ y) :
    (l1 ++ l2).Chain' (· ≤ ·) := by
  apply h1.append h2
  intro x hx y hy
  rcases List.mem_getLast?_eq_getLast hx with ⟨hne, rfl⟩
  have hyl : y ∈ l2 := by
    cases l2 with
    | nil => simp at hy
    | cons a l => simp only [List.head?_cons, Option.mem_def, Option.some.injEq] at hy
                  exact hy ▸ List.mem_cons_self a l
  exact le_trans (hu _ (List.getLast_mem hne)) (hl y hyl)

lemma chain_map_mono {f : ℝ → ℝ} {l : List ℝ} (hf : ∀ a b, a ≤ b → f a ≤ f b)
    (hl : l.Chain' (· ≤ ·)) : (l.map f).Chain' (· ≤ ·) :=
  (List.chain'_map f).mpr (hl.imp hf)

lemma chain_replicate (n : ℕ) (c : ℝ) :
    (List.replicate n c).Chain' (· ≤ ·) := by
  induction n with
  | zero => simp
  | succ k ih =>
      rw [List.replicate_succ, List.chain'_cons']
      refine ⟨fun y hy => ?_, ih⟩
      have hmem : y ∈ List.replicate k c := by
        cases hrep : List.replicate k c with
        | nil => rw [hrep] at hy; simp at hy
        | cons a l =>
            rw [hrep] at hy
            simp only [List.head?_cons, Option.mem_def, Option.some.injEq] at hy
            exact hy ▸ List.mem_cons_self a l
      rw [List.eq_of_mem_replicate hmem]

lemma hb_map_bounds (s e T : ℝ) (hse : s ≤ e) (hT : 0 < T) (l : List ℝ)
    (hl : ∀ t ∈ l, 0 ≤ t) :
    ∀ x ∈ l.map (fun t => heartbeat_percent s e t T),
      s ≤ x ∧ x ≤ s + (e - s) * 0.95 := by
  intro x hx
  rcases List.mem_map.mp hx with ⟨t, htl, rfl⟩
  exact ⟨heartbeat_percent_lower t T hse (hl t htl) hT,
         heartbeat_percent_upper t T hse⟩

lemma diar_map_bounds (l : List ℝ) (hl : ∀ p ∈ l, 0 ≤ p ∧ p ≤ 100) :
    ∀ x ∈ l.map (fun p => (58:ℝ) + p / 100 * (88 - 58)), 58 ≤ x ∧ x ≤ 88 := by
  intro x hx
  rcases List.mem_map.mp hx with ⟨p, hp, rfl⟩
  obtain ⟨h0, h100⟩ := hl p hp
  constructor <;> nlinarith

/-- **C3.** Within one transcribe request, the emitted progress percentages
are monotonically non-decreasing — heartbeat tick values (at non-decreasing
non-negative elapsed times), the fixed stage percents, and the remapped
diarization callbacks (assuming the engine reports non-decreasing
sub-percentages within [0, 100]) form a `≤`-chain up to the terminal
response. -/
theorem c3_progress_monotone (Tt Ta : ℝ) (ticksT ticksA : List ℝ)
    (diar : Bool) (dl : ℕ) (diarP : List ℝ)
    (hTt : 0 < Tt) (hTa : 0 < Ta)
    (htT : ∀ t ∈ ticksT, 0 ≤ t) (hcT : ticksT.Chain' (· ≤ ·))
    (htA : ∀ t ∈ ticksA, 0 ≤ t) (hcA : ticksA.Chain' (· ≤ ·))
    (hP : ∀ p ∈ diarP, 0 ≤ p ∧ p ≤ 100) (hcP : diarP.Chain' (· ≤ ·)) :
    (transcribeTrace Tt Ta ticksT ticksA diar dl diarP).Chain' (· ≤ ·) := by
  have hb1 := hb_map_bounds 10 38 Tt (by norm_num) hTt ticksT htT
  have hb2 := hb_map_bounds 40 54 Ta (by norm_num) hTa ticksA htA
  have hc1 : (ticksT.map (fun t => heartbeat_percent 10 38 t Tt)).Chain' (· ≤ ·) :=
    chain_map_mono (heartbeat_percent_mono Tt (by norm_num) hTt) hcT
  have hc2 : (ticksA.map (fun t => heartbeat_percent 40 54 t Ta)).Chain' (· ≤ ·) :=
    chain_map_mono (heartbeat_percent_mono Ta (by norm_num) hTa) hcA
  -- [5] ++ recognition ticks, glued at 10
  have hA1 : ([5] ++ ticksT.map (fun t => heartbeat_percent 10 38 t Tt)).Chain' (· ≤ ·) :=
    chain_le_append 10 (List.chain'_singleton 5) hc1
      (by intro x hx; simp at hx; subst hx; norm_num)
      (fun y hy => (hb1 y hy).1)
  -- ++ alignment ticks, glued at 40
  have hA2 : (([5] ++ ticksT.map (fun t => heartbeat_percent 10 38 t Tt))
      ++ ticksA.map (fun t => heartbeat_percent 40 54 t Ta)).Chain' (· ≤ ·) := by
    apply chain_le_append 40 hA1 hc2
    · intro x hx
      rcases List.mem_append.mp hx with h5 | hB1
      · simp at h5; subst h5; norm_num
      · have := (hb1 x hB1).2; linarith
    · exact fun y hy => (hb2 y hy).1
  -- ++ [55], glued at 55
  have hA2u : ∀ x ∈ ([5] ++ ticksT.map (fun t => heartbeat_percent 10 38 t Tt))
      ++ ticksA.map (fun t => heartbeat_percent 40 54 t Ta), x ≤ 55 := by
    intro x hx
    rcases List.mem_append.mp hx with hx1 | hB2
    · rcases List.mem_append.mp hx1 with h5 | hB1
      · simp at h5; subst h5; norm_num
      · have := (hb1 x hB1).2; linarith
    · have := (hb2 x hB2).2; linarith
  have hA3 : ((([5] ++ ticksT.map (fun t => heartbeat_percent 10 38 t Tt))
      ++ ticksA.map (fun t => heartbeat_percent 40 54 t Ta)) ++ [55]).Chain' (· ≤ ·) :=
    chain_le_append 55 hA2 (List.chain'_singleton 55) hA2u
      (by intro y hy; simp at hy; subst hy; exact le_refl 55)
  have hA3u : ∀ x ∈ (([5] ++ ticksT.map (fun t => heartbeat_percent 10 38 t Tt))
      ++ ticksA.map (fun t => heartbeat_percent 40 54 t Ta)) ++ [55], x ≤ 55 := by
    intro x hx
    rcases List.mem_append.mp hx with hx1 | h55
    · exact hA2u x hx1
    · simp at h55; subst h55; exact le_refl 55
  unfold transcribeTrace
  cases diar
  · rw [if_neg (by simp), List.append_nil]
    apply chain_le_append 96 hA3 (by norm_num)
    · intro x hx; have := hA3u x hx; linarith
    · intro y hy; simp at hy
      rcases hy with rfl | rfl <;> norm_num
  · rw [if_pos rfl]
    -- the diarization block, 56 .. 90
    have hDb := diar_map_bounds diarP hP
    have hcD : (diarP.map (fun p => (58:ℝ) + p / 100 * (88 - 58))).Chain' (· ≤ ·) :=
      chain_map_mono (fun a b hab => by nlinarith) hcP
    have hD1 : ([56] ++ List.replicate dl (56:ℝ)).Chain' (· ≤ ·) :=
      chain_le_append 56 (List.chain'_singleton 56) (chain_replicate dl 56)
        (by intro x hx; simp at hx; subst hx; exact le_refl 56)
        (by intro y hy; rw [List.eq_of_mem_replicate hy])
    have hD1u : ∀ x ∈ [56] ++ List.replicate dl (56:ℝ), x ≤ 56 := by
      intro x hx
      rcases List.mem_append.mp hx with h | h
      · simp at h; subst h; exact le_refl 56
      · rw [List.eq_of_mem_replicate h]
    have hD2 : (([56] ++ List.replicate dl (56:ℝ)) ++ [58]).Chain' (· ≤ ·) :=
      chain_le_append 58 hD1 (List.chain'_singleton 58)
        (fun x hx => by have := hD1u x hx; linarith)
        (by intro y hy; simp at hy; subst hy; exact le_refl 58)
    have hD3 : ((([56] ++ List.replicate dl (56:ℝ)) ++ [58])
        ++ diarP.map (fun p => (58:ℝ) + p / 100 * (88 - 58))).Chain' (· ≤ ·) := by
      apply chain_le_append 58 hD2 hcD
      · intro x hx
        rcases List.mem_append.mp hx with h | h
        · have := hD1u x h; linarith
        · simp at h; subst h; exact le_refl 58
      · exact fun y hy => (hDb y hy).1
    have hD3u : ∀ x ∈ (([56] ++ List.replicate dl (56:ℝ)) ++ [58])
        ++ diarP.map (fun p => (58:ℝ) + p / 100 * (88 - 58)), x ≤ 88 := by
      intro x hx
      rcases List.mem_append.mp hx with h | h
      · rcases List.mem_append.mp h with h2 | h2
        · have := hD1u x h2; linarith
        · simp at h2; subst h2; norm_num
      · exact (hDb x h).2
    have hD4 : (((([56] ++ List.replicate dl (56:ℝ)) ++ [58])
        ++ diarP.map (fun p => (58:ℝ) + p / 100 * (88 - 58))) ++ [90]).Chain' (· ≤ ·) :=
      chain_le_append 90 hD3 (List.chain'_singleton 90)
        (fun x hx => by have := hD3u x hx; linarith)
        (by intro y hy; simp at hy; subst hy; exact le_refl 90)
    have hD4b : ∀ x ∈ ((([56] ++ List.replicate dl (56:ℝ)) ++ [58])
        ++ diarP.map (fun p => (58:ℝ) + p / 100 * (88 - 58))) ++ [90],
        56 ≤ x ∧ x ≤ 90 := by
      intro x hx
      rcases List.mem_append.mp hx with h | h
      · constructor
        · rcases List.mem_append.mp h with h2 | h2
          · rcases List.mem_append.mp h2 with h3 | h3
            · rcases List.mem_append.mp h3 with h4 | h4
              · simp at h4; subst h4; exact le_refl 56
              · rw [List.eq_of_mem_replicate h4]
            · simp at h3; subst h3; norm_num
          · have := (hDb x h2).1; linarith
        · have := hD3u x h; linarith
      · simp at h; subst h; norm_num
    have hA4 : (((([5] ++ ticksT.map (fun t => heartbeat_percent 10 38 t Tt))
        ++ ticksA.map (fun t => heartbeat_percent 40 54 t Ta)) ++ [55])
        ++ (((([56] ++ List.replicate dl (56:ℝ)) ++ [58])
          ++ diarP.map (fun p => (58:ℝ) + p / 100 * (88 - 58))) ++ [90])).Chain' (· ≤ ·) :=
      chain_le_append 56 hA3 hD4
        (fun x hx => by have := hA3u x hx; linarith)
        (fun y hy => (hD4b y hy).1)
    apply chain_le_append 96 hA4 (by norm_num)
    · intro x hx
      rcases List.mem_append.mp hx with h | h
      · have := hA3u x h; linarith
      · have := (hD4b x h).2; linarith
    · intro y hy; simp at hy
      rcases hy with rfl | rfl <;> norm_num

/-- Witness for C3: the empty-tick, diarization-disabled trace
`[5, 55, 96, 100]` with `Tt = 60`, `Ta = 90`. -/
theorem c3_witness :
    (0:ℝ) < 60 ∧ (0:ℝ) < 90 ∧
    (transcribeTrace 60 90 [] [] false 0 []).Chain' (· ≤ ·) :=
  ⟨by norm_num, by norm_num,
   c3_progress_monotone 60 90 [] [] false 0 []
     (by norm_num) (by norm_num)
     (by intro t ht; cases ht) List.chain'_nil
     (by intro t ht; cases ht) List.chain'_nil
     (by intro p hp; cases hp) List.chain'_nil⟩

end XScribe
